import Mathlib

/-!
Verification of the SCUM server-browser's discovery and query core.

Shallow embedding of the Python sources:
* `scum_tracker/services/steam_query.py` — A2S info-response decoder
  (`A2SQuerier._parse_a2s_info`) and the master-server pagination loop
  (`SteamMasterServerQuerier._query_master`);
* `scum_tracker/services/server_manager.py` — the BattleMetrics paginated
  fetch (`ServerManager._fetch_battlemetrics_servers`, `fetch_servers`);
* `scum_tracker/services/ping_service.py` — `PingService.ping_server`;
* `scum_tracker/ui/main_window.py` — `DisplayWorker.run` (filter/sort view),
  `ServerFetchWorker.run` + `MainWindow._update_servers` (snapshot swap),
  `PingWorker.run` + `MainWindow._on_ping_completed` (probe application);
* `scum_tracker/models/server.py` — the `GameServer` and `PingRecord`
  dataclasses.

Conventions: Python `bytes` are `List Nat` (each element a byte value);
the text of a wire string field is kept as its UTF-8 byte sequence, since
Python's `.decode('utf-8')` / `.encode('utf-8')` pair is the identity on
the buffers at issue; Python `None` is `Option.none`; `datetime` values
are opaque `Nat` timestamps; network effects (socket receives, HTTP page
responses, TCP connect outcomes) are passed in explicitly as data.
-/

namespace ScumTracker

/-! ## Data model (`scum_tracker/models/server.py`) -/

/-- `GameServer` dataclass: one catalog entity.  Field defaults follow the
Python dataclass (`version="Unknown"`, `latency=None`, `is_favorite=False`,
`last_ping_time=None`). -/
structure GameServer where
  id : String
  name : String
  ip : String
  port : Nat
  players : Nat
  max_players : Nat
  map : String
  region : String
  version : String := "Unknown"
  latency : Option Int := none
  is_favorite : Bool := false
  last_ping_time : Option Nat := none
  deriving DecidableEq, Repr

/-- `PingRecord` dataclass: one ping measurement.  `timestamp` defaults to
"now"; modelled as an opaque `Nat`. -/
structure PingRecord where
  server_id : String
  latency : Int
  timestamp : Nat := 0
  success : Bool := true
  error_message : Option String := none
  deriving DecidableEq, Repr

/-! ## A2S info-response decoder (`steam_query.py`, `A2SQuerier`) -/

/-- `ServerInfo` dataclass from `steam_query.py`.  String fields hold the
raw UTF-8 bytes of the corresponding wire strings.  Note the dataclass has
no field for the game-directory ("folder") string: `_parse_a2s_info` reads
it but does not store it. -/
structure ServerInfo where
  name : List Nat
  map : List Nat
  game : List Nat
  players : Nat
  max_players : Nat
  bots : Nat
  server_type : Char
  environment : Char
  visibility : Nat
  vac : Nat
  version : List Nat
  port : Option Nat := none
  steam_id : Option Nat := none
  deriving DecidableEq, Repr

/-- `read_string(start_idx)` inside `_parse_a2s_info`: find the first null
byte at or after `start`; on success return the slice up to it and the
index one past the null; if no null exists return the empty string and the
unchanged index.  (`data.find(b'\x00', start)` = index of the first zero
at position ≥ `start`, or -1.) -/
def read_string (data : List Nat) (start : Nat) : List Nat × Nat :=
  match (data.drop start).findIdx? (fun b => b == 0) with
  | none => ([], start)
  | some j => ((data.drop start).take j, start + j + 1)

/-- `A2SQuerier._parse_a2s_info`: decode an A2S_INFO response buffer.
Returns `none` (Python `None`) on a malformed buffer.  The walk: validate
length ≥ 5, 4-byte `0xFF` header and type byte `0x49` (=73); skip the
protocol byte; read four null-terminated strings (name, map, folder, game
— folder is parsed only for its length, the result object drops it); skip
the 2-byte app id; bounds-check and read seven fixed bytes; read the
null-terminated version string. -/
def parse_a2s_info (data : List Nat) : Option ServerInfo :=
  if data.length < 5 then none
  else if data.take 4 ≠ [255, 255, 255, 255] then none
  else if data.getD 4 0 ≠ 73 then none
  else
    -- idx = 5, then idx += 1 to skip the protocol byte
    let r1 := read_string data 6
    let r2 := read_string data r1.2
    let r3 := read_string data r2.2
    let r4 := read_string data r3.2
    -- skip app ID (2 bytes)
    let idx := r4.2 + 2
    if idx + 7 > data.length then none
    else
      let rv := read_string data (idx + 7)
      some { name := r1.1
             map := r2.1
             game := r4.1
             players := data.getD idx 0
             max_players := data.getD (idx + 1) 0
             bots := data.getD (idx + 2) 0
             server_type := Char.ofNat (data.getD (idx + 3) 0)
             environment := Char.ofNat (data.getD (idx + 4) 0)
             visibility := data.getD (idx + 5) 0
             vac := data.getD (idx + 6) 0
             version := rv.1 }

/-- Synthetic encoder for a valid A2S_INFO response, following the wire
layout documented in `_parse_a2s_info`'s docstring: `0xFFFFFFFF` header,
type byte `0x49`, protocol byte, four null-terminated strings (name, map,
folder, game), 2-byte app id, seven fixed bytes (players, max players,
bots, server type, environment, visibility, VAC), null-terminated version.
The folder string and the protocol/app-id bytes are extra wire data not
represented in `ServerInfo`. -/
def encode_a2s_info (info : ServerInfo) (protocol appid0 appid1 : Nat)
    (folder : List Nat) : List Nat :=
  [255, 255, 255, 255, 73, protocol]
    ++ info.name ++ [0]
    ++ info.map ++ [0]
    ++ folder ++ [0]
    ++ info.game ++ [0]
    ++ [appid0, appid1,
        info.players, info.max_players, info.bots,
        info.server_type.toNat, info.environment.toNat,
        info.visibility, info.vac]
    ++ info.version ++ [0]

/-! Helper lemmas about `read_string`. -/

/-- `findIdx?` on a zero-free block followed by a zero finds the zero. -/
lemma findIdx_zero_after (s rest : List Nat) (i : Nat) (hs : 0 ∉ s) :
    (s ++ 0 :: rest).findIdx? (fun b => b == 0) i = some (i + s.length) := by
  induction s generalizing i with
  | nil => simp [List.findIdx?_cons]
  | cons a s ih =>
      have ha : a ≠ 0 := fun h => hs (by simp [h])
      have ha' : (a == 0) = false := by simp [ha]
      have h2 := ih (i + 1) (fun h => hs (by simp [h]))
      simp only [List.cons_append, List.findIdx?_cons, ha', if_false, h2,
        List.length_cons]
      have h3 : i + 1 + s.length = i + (s.length + 1) := by omega
      exact h3 ▸ rfl

/-- `read_string` on a buffer whose suffix at `start` is a zero-free string
followed by a null terminator returns that string and the index one past
the terminator. -/
lemma read_string_spec (data : List Nat) (start : Nat) (s rest : List Nat)
    (hd : data.drop start = s ++ 0 :: rest) (hs : 0 ∉ s) :
    read_string data start = (s, start + s.length + 1) := by
  unfold read_string
  rw [hd, findIdx_zero_after s rest 0 hs]
  simp [List.take_left]

/-- After `read_string` consumes `s` and its terminator, the rest of the
buffer is the suffix that followed the terminator. -/
lemma drop_after_read (data : List Nat) (start : Nat) (s rest : List Nat)
    (hd : data.drop start = s ++ 0 :: rest) :
    data.drop (start + s.length + 1) = rest := by
  have h1 : data.drop (start + s.length + 1)
      = (data.drop start).drop (s.length + 1) := by
    rw [List.drop_drop]
    ring_nf
  have h2 : s ++ 0 :: rest = (s ++ [0]) ++ rest := by simp
  have h3 : (s ++ [0]).length = s.length + 1 := by simp
  rw [h1, hd, h2, ← h3, List.drop_left]

/-- Reading a byte at offset `start + k` reads offset `k` of the suffix. -/
lemma getD_add_drop (data : List Nat) (start k : Nat) :
    data.getD (start + k) 0 = (data.drop start).getD k 0 := by
  simp [List.getD_eq_getElem?_getD, List.getElem?_drop]


/-- The encoder's output in right-nested form. -/
lemma encode_eq (info : ServerInfo) (protocol a0 a1 : Nat) (folder : List Nat) :
    encode_a2s_info info protocol a0 a1 folder
      = 255 :: 255 :: 255 :: 255 :: 73 :: protocol ::
        (info.name ++ 0 ::
          (info.map ++ 0 ::
            (folder ++ 0 ::
              (info.game ++ 0 ::
                (a0 :: a1 :: info.players :: info.max_players :: info.bots ::
                  info.server_type.toNat :: info.environment.toNat ::
                  info.visibility :: info.vac :: (info.version ++ [0])))))) := by
  simp [encode_a2s_info]

theorem parse_encode_roundtrip (info : ServerInfo) (protocol a0 a1 : Nat)
    (folder : List Nat) (hn : 0 ∉ info.name) (hm : 0 ∉ info.map)
    (hf : 0 ∉ folder) (hg : 0 ∉ info.game) (hv : 0 ∉ info.version)
    (hport : info.port = none) (hsid : info.steam_id = none) :
    parse_a2s_info (encode_a2s_info info protocol a0 a1 folder) = some info := by
  obtain ⟨n, mp_, g, pl, mx, bo, st, en, vi, va, ver, po, si⟩ := info
  dsimp only at hn hm hg hv hport hsid
  subst hport hsid
  have hdata := encode_eq ⟨n, mp_, g, pl, mx, bo, st, en, vi, va, ver, none, none⟩
    protocol a0 a1 folder
  dsimp only at hdata
  set data := encode_a2s_info ⟨n, mp_, g, pl, mx, bo, st, en, vi, va, ver, none, none⟩
    protocol a0 a1 folder with hdef
  have hdrop6 : data.drop 6
      = n ++ 0 :: (mp_ ++ 0 :: (folder ++ 0 :: (g ++ 0 ::
          (a0 :: a1 :: pl :: mx :: bo :: st.toNat :: en.toNat :: vi :: va ::
            (ver ++ [0]))))) := by rw [hdata]; rfl
  have hr1 : read_string data 6 = (n, 6 + n.length + 1) :=
    read_string_spec data 6 n _ hdrop6 hn
  have hd1 := drop_after_read data 6 n _ hdrop6
  have hr2 : read_string data (6 + n.length + 1)
      = (mp_, 6 + n.length + 1 + mp_.length + 1) :=
    read_string_spec data _ mp_ _ hd1 hm
  have hd2 := drop_after_read data _ mp_ _ hd1
  have hr3 : read_string data (6 + n.length + 1 + mp_.length + 1)
      = (folder, 6 + n.length + 1 + mp_.length + 1 + folder.length + 1) :=
    read_string_spec data _ folder _ hd2 hf
  have hd3 := drop_after_read data _ folder _ hd2
  have hr4 : read_string data (6 + n.length + 1 + mp_.length + 1 + folder.length + 1)
      = (g, 6 + n.length + 1 + mp_.length + 1 + folder.length + 1 + g.length + 1) :=
    read_string_spec data _ g _ hd3 hg
  have hd4 := drop_after_read data _ g _ hd3
  -- hd4 : data.drop i4 = a0 :: a1 :: ... :: (ver ++ [0])
  have hlen : data.length
      = (6 + n.length + 1 + mp_.length + 1 + folder.length + 1 + g.length + 1)
        + 10 + ver.length := by
    have h1 := congrArg List.length hd4
    rw [List.length_drop] at h1
    simp at h1
    omega
  have c1 : ¬ data.length < 5 := by omega
  have c2 : ¬ data.take 4 ≠ [255, 255, 255, 255] := by
    rw [hdata]; simp
  have c3 : ¬ data.getD 4 0 ≠ 73 := by
    rw [hdata]; simp
  have c4 : ¬ (6 + n.length + 1 + mp_.length + 1 + folder.length + 1 + g.length + 1
      + 2 + 7 > data.length) := by omega
  have hd9 : data.drop
      (6 + n.length + 1 + mp_.length + 1 + folder.length + 1 + g.length + 1 + 2 + 7)
      = ver ++ 0 :: [] := by
    have h : 6 + n.length + 1 + mp_.length + 1 + folder.length + 1 + g.length + 1 + 2 + 7
        = 6 + n.length + 1 + mp_.length + 1 + folder.length + 1 + g.length + 1 + 9 := by omega
    rw [h, ← List.drop_drop, hd4]
    rfl
  have hrv : read_string data
      (6 + n.length + 1 + mp_.length + 1 + folder.length + 1 + g.length + 1 + 2 + 7)
      = (ver, 6 + n.length + 1 + mp_.length + 1 + folder.length + 1 + g.length + 1
          + 2 + 7 + ver.length + 1) :=
    read_string_spec data _ ver [] hd9 hv
  have e0 : data.getD
      (6 + n.length + 1 + mp_.length + 1 + folder.length + 1 + g.length + 1 + 2) 0 = pl := by
    rw [getD_add_drop, hd4]
    rfl
  have idx3 : ∀ k : Nat,
      6 + n.length + 1 + mp_.length + 1 + folder.length + 1 + g.length + 1 + 2 + k
        = 6 + n.length + 1 + mp_.length + 1 + folder.length + 1 + g.length + 1 + (2 + k) := by
    intro k; omega
  have e1 : data.getD
      (6 + n.length + 1 + mp_.length + 1 + folder.length + 1 + g.length + 1 + 2 + 1) 0 = mx := by
    rw [idx3 1, getD_add_drop, hd4]; rfl
  have e2 : data.getD
      (6 + n.length + 1 + mp_.length + 1 + folder.length + 1 + g.length + 1 + 2 + 2) 0 = bo := by
    rw [idx3 2, getD_add_drop, hd4]; rfl
  have e3 : data.getD
      (6 + n.length + 1 + mp_.length + 1 + folder.length + 1 + g.length + 1 + 2 + 3) 0 = st.toNat := by
    rw [idx3 3, getD_add_drop, hd4]; rfl
  have e4 : data.getD
      (6 + n.length + 1 + mp_.length + 1 + folder.length + 1 + g.length + 1 + 2 + 4) 0 = en.toNat := by
    rw [idx3 4, getD_add_drop, hd4]; rfl
  have e5 : data.getD
      (6 + n.length + 1 + mp_.length + 1 + folder.length + 1 + g.length + 1 + 2 + 5) 0 = vi := by
    rw [idx3 5, getD_add_drop, hd4]; rfl
  have e6 : data.getD
      (6 + n.length + 1 + mp_.length + 1 + folder.length + 1 + g.length + 1 + 2 + 6) 0 = va := by
    rw [idx3 6, getD_add_drop, hd4]; rfl
  simp only [parse_a2s_info, hr1, hr2, hr3, hr4]
  rw [if_neg c1, if_neg c2, if_neg c3, if_neg c4]
  simp only [hrv, e0, e1, e2, e3, e4, e5, e6, Char.ofNat_toNat]

/-! ## Claim C2 — malformed buffers decode to `None` -/

/-- C2: for every byte buffer shorter than 5 bytes, and for every buffer
whose first 4 bytes are not `0xFF 0xFF 0xFF 0xFF`, `_parse_a2s_info`
returns `None` (the malformed-response failure value), never a partially
populated `ServerInfo`. -/
theorem parse_malformed_none (data : List Nat)
    (h : data.length < 5 ∨ data.take 4 ≠ [255, 255, 255, 255]) :
    parse_a2s_info data = none := by
  unfold parse_a2s_info
  rcases h with h | h
  · rw [if_pos h]
  · by_cases h5 : data.length < 5
    · rw [if_pos h5]
    · rw [if_neg h5, if_pos h]

/-- Witness for `parse_malformed_none`: a 3-byte buffer and a 6-byte buffer
with a wrong header both decode to `None`. -/
theorem parse_malformed_none_witness :
    parse_a2s_info [1, 2, 3] = none ∧ parse_a2s_info [1, 2, 3, 4, 73, 0] = none :=
  ⟨parse_malformed_none [1, 2, 3] (Or.inl (by decide)),
   parse_malformed_none [1, 2, 3, 4, 73, 0] (Or.inr (by decide))⟩

/-! ## Claim C10 — missing string terminators yield empty strings -/

/-- A 15-byte buffer with a valid header and type byte whose bytes after
position 4 are all nonzero. -/
def c10_buffer : List Nat := [255, 255, 255, 255, 73, 6, 1, 2, 3, 4, 5, 6, 7, 8, 9]

/-- C10: on a buffer of at least 15 bytes with the `0xFF` header, type byte
`0x49`, and no null byte after position 4, decoding succeeds and all five
string fields (name, map, game-directory, game-description, version) come
back empty — a missing terminator is not reported as malformed because the
seven-byte fixed block still fits. -/
theorem parse_no_terminator_empty_strings :
    c10_buffer.length = 15 ∧
    c10_buffer.take 4 = [255, 255, 255, 255] ∧
    c10_buffer.getD 4 0 = 73 ∧
    (∀ i, i < c10_buffer.length → 5 ≤ i → c10_buffer.getD i 0 ≠ 0) ∧
    parse_a2s_info c10_buffer
      = some { name := [], map := [], game := [], players := 3, max_players := 4,
               bots := 5, server_type := Char.ofNat 6, environment := Char.ofNat 7,
               visibility := 8, vac := 9, version := [] } := by
  refine ⟨rfl, rfl, rfl, by decide, by decide⟩

/-! ## Claim C1 — round-trip of the wire codec -/

/-- A concrete `ServerInfo` used by the C1 counterexample. -/
def cexInfo : ServerInfo :=
  { name := [83, 67, 85, 77], map := [77, 49], game := [71],
    players := 12, max_players := 64, bots := 2,
    server_type := 'd', environment := 'l', visibility := 0, vac := 1,
    version := [49, 46, 49] }

/-- C1 counterexample: two valid response buffers that differ only in their
game-directory (folder) string decode to the same `ServerInfo`, so decoding
cannot recover the encoded game-directory value — `ServerInfo` has no field
for it. -/
theorem parse_folder_not_recovered :
    parse_a2s_info (encode_a2s_info cexInfo 17 154 7 [65])
        = parse_a2s_info (encode_a2s_info cexInfo 17 154 7 [66])
      ∧ ([65] : List Nat) ≠ [66] := by
  refine ⟨by decide, by decide⟩

/-- Witness for `parse_encode_roundtrip` at a concrete valid response. -/
theorem parse_encode_roundtrip_witness :
    parse_a2s_info (encode_a2s_info cexInfo 17 154 7 [102, 100]) = some cexInfo :=
  parse_encode_roundtrip cexInfo 17 154 7 [102, 100] (by decide) (by decide)
    (by decide) (by decide) (by decide) rfl rfl


/-! ## Master-server discovery (`steam_query.py`,
`SteamMasterServerQuerier._query_master`) -/

/-- One master-server reply to one request/reply round: either the UDP
receive timed out or a datagram of raw bytes arrived. -/
inductive MasterReply where
  | timedOut
  | datagram (bytes : List Nat)
  deriving DecidableEq, Repr

/-- `'.'.join(str(b) for b in ip_bytes)`: dotted-quad rendering of the four
IP bytes. -/
def ipString (b0 b1 b2 b3 : Nat) : String :=
  toString b0 ++ "." ++ toString b1 ++ "." ++ toString b2 ++ "." ++ toString b3

/-- The inner `while i + 6 <= len(data)` loop of `_query_master` over the
bytes after the 6-byte reply header: consume 6-byte entries (4 IP bytes
and a big-endian 2-byte port); on the `0.0.0.0:0` end marker stop with
second component `true` (Python `return servers` — the entries of the
current partial batch are discarded); when fewer than 6 bytes remain stop
with `false`. -/
def parseBatch : List Nat → List (String × Nat) × Bool
  | b0 :: b1 :: b2 :: b3 :: p0 :: p1 :: rest =>
      let ip := ipString b0 b1 b2 b3
      let port := p0 * 256 + p1
      if ip = "0.0.0.0" ∧ port = 0 then ([], true)
      else
        let r := parseBatch rest
        ((ip, port) :: r.1, r.2)
  | _ => ([], false)

/-- The `while iteration < max_iterations` loop of `_query_master`.
`fuel = max_iterations - iteration`; `reqIdx` numbers the request/reply
rounds, so `replies reqIdx` is the reply received in the next round (the
request's seed only affects the outgoing packet, which the reply model
abstracts over); `rounds` counts rounds performed.  Exit paths: timeout
(`break`), short reply (`break`), end marker (`return servers`), empty
batch (`break`), else accumulate the batch, reseed and iterate.  Every
path returns the accumulated list — a soft success, never an error. -/
def queryMasterAux (replies : Nat → MasterReply) :
    Nat → Nat → List (String × Nat) → Nat → List (String × Nat) × Nat
  | 0, _, servers, rounds => (servers, rounds)
  | fuel + 1, reqIdx, servers, rounds =>
      match replies reqIdx with
      | .timedOut => (servers, rounds + 1)
      | .datagram d =>
          if d.length < 6 then (servers, rounds + 1)
          else
            match parseBatch (d.drop 6) with
            | (_, true) => (servers, rounds + 1)
            | ([], false) => (servers, rounds + 1)
            | (b :: bs, false) =>
                queryMasterAux replies fuel (reqIdx + 1) (servers ++ b :: bs) (rounds + 1)

/-- `_query_master` against one master server: `max_iterations = 100`,
starting from an empty accumulator.  Returns the accumulated `(ip, port)`
list and the number of request/reply rounds performed. -/
def queryMaster (replies : Nat → MasterReply) : List (String × Nat) × Nat :=
  queryMasterAux replies 100 0 [] 0

/-- No entry produced by `parseBatch` is the `0.0.0.0:0` end marker. -/
lemma parseBatch_no_marker (bytes : List Nat) :
    ∀ e ∈ (parseBatch bytes).1, ¬ (e.1 = "0.0.0.0" ∧ e.2 = 0) := by
  induction bytes using parseBatch.induct with
  | case1 b0 b1 b2 b3 p0 p1 rest ip port h =>
      simp only [ip, port] at h
      simp [parseBatch, h]
  | case2 b0 b1 b2 b3 p0 p1 rest ip port h ih =>
      simp only [ip, port] at h
      intro e he
      simp only [parseBatch, if_neg h] at he
      rcases List.mem_cons.mp he with rfl | hm
      · exact h
      · exact ih e hm
  | case3 bytes h => simp [parseBatch]

/-- The loop performs at most `fuel` further rounds. -/
lemma queryMasterAux_rounds_le (replies : Nat → MasterReply) (fuel reqIdx : Nat)
    (servers : List (String × Nat)) (rounds : Nat) :
    (queryMasterAux replies fuel reqIdx servers rounds).2 ≤ rounds + fuel := by
  induction fuel generalizing reqIdx servers rounds with
  | zero => simp [queryMasterAux]
  | succ f ih =>
      show (queryMasterAux replies (f + 1) reqIdx servers rounds).2 ≤ rounds + (f + 1)
      unfold queryMasterAux
      cases replies reqIdx with
      | timedOut => simp
      | datagram d =>
          by_cases h6 : d.length < 6
          · simp [h6]
          · simp only [h6, if_false]
            cases hpb : parseBatch (d.drop 6) with
          | mk batch sawEnd =>
            cases sawEnd with
            | true => simp
            | false =>
                cases batch with
                | nil => simp
                | cons b bs =>
                    simp only []
                    have := ih (reqIdx + 1) (servers ++ b :: bs) (rounds + 1)
                    omega

/-- If the accumulator is marker-free, so is the loop's result. -/
lemma queryMasterAux_no_marker (replies : Nat → MasterReply) (fuel reqIdx : Nat)
    (servers : List (String × Nat)) (rounds : Nat)
    (hs : ∀ e ∈ servers, ¬ (e.1 = "0.0.0.0" ∧ e.2 = 0)) :
    ∀ e ∈ (queryMasterAux replies fuel reqIdx servers rounds).1,
      ¬ (e.1 = "0.0.0.0" ∧ e.2 = 0) := by
  induction fuel generalizing reqIdx servers rounds with
  | zero => simpa [queryMasterAux] using hs
  | succ f ih =>
      unfold queryMasterAux
      cases replies reqIdx with
      | timedOut => simpa using hs
      | datagram d =>
          by_cases h6 : d.length < 6
          · simpa [h6] using hs
          · simp only [h6, if_false]
            cases hpb : parseBatch (d.drop 6) with
          | mk batch sawEnd =>
            cases sawEnd with
            | true => simpa using hs
            | false =>
                cases batch with
                | nil => simpa using hs
                | cons b bs =>
                    simp only []
                    refine ih (reqIdx + 1) (servers ++ b :: bs) (rounds + 1) ?_
                    intro e he
                    rcases List.mem_append.mp he with h | h
                    · exact hs e h
                    · have := parseBatch_no_marker (d.drop 6)
                      rw [hpb] at this
                      exact this e h

/-- C3: for every sequence of master-server replies — including sequences
that never contain the `0.0.0.0:0` end marker — `_query_master` performs
at most 100 request/reply rounds and returns the entries accumulated so
far as its (soft-success) result, and that list never contains the
`0.0.0.0:0` end-marker entry. -/
theorem query_master_bounded_no_marker (replies : Nat → MasterReply) :
    (queryMaster replies).2 ≤ 100 ∧
    ∀ e ∈ (queryMaster replies).1, ¬ (e.1 = "0.0.0.0" ∧ e.2 = 0) :=
  ⟨queryMasterAux_rounds_le replies 100 0 [] 0,
   queryMasterAux_no_marker replies 100 0 [] 0 (by simp)⟩


/-! ## BattleMetrics fetch (`server_manager.py`,
`ServerManager._fetch_battlemetrics_servers`) -/

/-- One record of a BattleMetrics page's `data` array: the attribute
fields the fetch reads (`attributes` plus the nested
`attributes.details`), each `none` when absent from the JSON. -/
structure BMRow where
  id : Option String := none
  name : Option String := none
  ip : Option String := none
  port : Option Nat := none
  players : Option Nat := none
  maxPlayers : Option Nat := none
  map : Option String := none
  country : Option String := none
  version : Option String := none
  deriving DecidableEq, Repr

/-- Stand-in for `str(uuid.uuid4())`, the fresh id generated when a record
has no `id` field; modelled as a fixed string since no claim depends on
its uniqueness. -/
def uuid4 : String := "00000000-0000-4000-8000-000000000000"

/-- Construction of one `GameServer` from one record, with the `get(...)`
defaults used in `_fetch_battlemetrics_servers`; `latency`, `is_favorite`
and `last_ping_time` take the dataclass defaults (`None`, `False`,
`None`). -/
def mkBMServer (row : BMRow) : GameServer :=
  { id := row.id.getD uuid4
    name := row.name.getD "Unknown"
    ip := row.ip.getD "0.0.0.0"
    port := row.port.getD 0
    players := row.players.getD 0
    max_players := row.maxPlayers.getD 0
    map := row.map.getD "Unknown"
    region := row.country.getD "Unknown"
    version := row.version.getD "Unknown" }

/-- One HTTP page response: `ok rows hasNext` is a 2xx response whose
JSON held the listed records and whose `links.next` is present iff
`hasNext`; `netFail` is any network-level failure that the
`except requests.RequestException` clause catches (timeout, non-2xx
status raised by `raise_for_status`, malformed JSON). -/
inductive PageResult where
  | ok (rows : List BMRow) (hasNext : Bool)
  | netFail
  deriving Repr

/-- The `while url and page_count < max_pages` loop of
`_fetch_battlemetrics_servers`.  `budget = max_pages - page_count`;
`pageIdx` numbers the page requests, `acc` is the accumulated server list
and `reqs` counts HTTP requests issued.  A `netFail` on any page aborts
the whole operation: the `except` handler returns `[]`, discarding
`acc`, and only prints the error. -/
def fetchBMAux (pages : Nat → PageResult) :
    Nat → Nat → List GameServer → Nat → List GameServer × Nat
  | _, 0, acc, reqs => (acc, reqs)
  | pageIdx, budget + 1, acc, reqs =>
      match pages pageIdx with
      | .netFail => ([], reqs + 1)
      | .ok rows hasNext =>
          let acc2 := acc ++ rows.map mkBMServer
          if hasNext then fetchBMAux pages (pageIdx + 1) budget acc2 (reqs + 1)
          else (acc2, reqs + 1)

/-- `_fetch_battlemetrics_servers` with `max_pages = 10`: the server list
it returns (its only output — no error value accompanies it). -/
def fetchBM (pages : Nat → PageResult) : List GameServer :=
  (fetchBMAux pages 0 10 [] 0).1

/-- The number of HTTP page requests `_fetch_battlemetrics_servers`
issues. -/
def fetchBMRequests (pages : Nat → PageResult) : Nat :=
  (fetchBMAux pages 0 10 [] 0).2

/-- The loop issues at most `budget` further requests. -/
lemma fetchBMAux_reqs_le (pages : Nat → PageResult) (budget : Nat) :
    ∀ pageIdx acc reqs, (fetchBMAux pages pageIdx budget acc reqs).2 ≤ reqs + budget := by
  induction budget with
  | zero => intro pageIdx acc reqs; simp [fetchBMAux]
  | succ b ih =>
      intro pageIdx acc reqs
      unfold fetchBMAux
      cases pages pageIdx with
      | netFail => simp
      | ok rows hasNext =>
          cases hasNext with
          | false => simp
          | true =>
              simp only [if_true]
              have := ih (pageIdx + 1) (acc ++ rows.map mkBMServer) (reqs + 1)
              omega

/-- When every response carries a `next` link the loop spends its whole
budget. -/
lemma fetchBMAux_reqs_eq_of_next (pages : Nat → PageResult) (budget : Nat)
    (h : ∀ n, ∃ rows, pages n = .ok rows true) :
    ∀ pageIdx acc reqs, (fetchBMAux pages pageIdx budget acc reqs).2 = reqs + budget := by
  induction budget with
  | zero => intro pageIdx acc reqs; simp [fetchBMAux]
  | succ b ih =>
      intro pageIdx acc reqs
      obtain ⟨rows, hrows⟩ := h pageIdx
      unfold fetchBMAux
      rw [hrows]
      simp only [if_true]
      rw [ih (pageIdx + 1) (acc ++ rows.map mkBMServer) (reqs + 1)]
      omega

/-- C7: for every sequence of page responses,
`_fetch_battlemetrics_servers` issues at most `max_pages = 10` HTTP page
requests, and against a server whose every response contains a next-page
link it issues exactly 10. -/
theorem fetch_bm_page_cap (pages : Nat → PageResult) :
    fetchBMRequests pages ≤ 10 ∧
    ((∀ n, ∃ rows, pages n = .ok rows true) → fetchBMRequests pages = 10) :=
  ⟨fetchBMAux_reqs_le pages 10 0 [] 0,
   fun h => fetchBMAux_reqs_eq_of_next pages 10 h 0 [] 0⟩

/-- A mock server whose every response is an empty page with a `next`
link. -/
def alwaysNextPages : Nat → PageResult := fun _ => .ok [] true

/-- Witness for `fetch_bm_page_cap`: against the always-`next` mock
exactly 10 requests are issued. -/
theorem fetch_bm_page_cap_witness :
    fetchBMRequests alwaysNextPages = 10 ∧ fetchBMRequests alwaysNextPages ≤ 10 :=
  ⟨(fetch_bm_page_cap alwaysNextPages).2 (fun _ => ⟨[], rfl⟩),
   (fetch_bm_page_cap alwaysNextPages).1⟩

/-- A server whose every request fails at the network level. -/
def failingPages : Nat → PageResult := fun _ => .netFail

/-- A successful fetch that finds no servers: one empty page, no `next`
link. -/
def emptyOkPages : Nat → PageResult := fun _ => .ok [] false

/-- A network failure on the page actually reached empties the result. -/
lemma fetchBMAux_fail (pages : Nat → PageResult) (j : Nat) :
    ∀ budget pageIdx acc reqs, j < budget →
      (∀ m, m < j → ∃ rows, pages (pageIdx + m) = .ok rows true) →
      pages (pageIdx + j) = .netFail →
      (fetchBMAux pages pageIdx budget acc reqs).1 = [] := by
  induction j with
  | zero =>
      intro budget pageIdx acc reqs hj hbefore hfail
      obtain ⟨b, rfl⟩ : ∃ b, budget = b + 1 := ⟨budget - 1, by omega⟩
      unfold fetchBMAux
      rw [show pageIdx + 0 = pageIdx from rfl] at hfail
      rw [hfail]
  | succ j ih =>
      intro budget pageIdx acc reqs hj hbefore hfail
      obtain ⟨b, rfl⟩ : ∃ b, budget = b + 1 := ⟨budget - 1, by omega⟩
      obtain ⟨rows, hrows⟩ := hbefore 0 (by omega)
      rw [show pageIdx + 0 = pageIdx from rfl] at hrows
      unfold fetchBMAux
      rw [hrows]
      simp only [if_true]
      refine ih b (pageIdx + 1) _ (reqs + 1) (by omega) ?_ ?_
      · intro m hm
        have := hbefore (m + 1) (by omega)
        rwa [show pageIdx + (m + 1) = pageIdx + 1 + m by omega] at this
      · rwa [show pageIdx + (j + 1) = pageIdx + 1 + j by omega] at hfail

/-- C6 (amended): when the fetch fails at the network level on any page it
actually reaches, `_fetch_battlemetrics_servers` returns an empty list —
indistinguishable, by return value, from a successful fetch that found no
servers.  The exception is caught (it does not propagate), but the error
is only printed: no error value accompanies the empty list. -/
theorem fetch_failure_empty_list (pages : Nat → PageResult) (i : Nat)
    (hi : i < 10)
    (hbefore : ∀ m, m < i → ∃ rows, pages m = .ok rows true)
    (hfail : pages i = .netFail) :
    fetchBM pages = [] ∧ fetchBM pages = fetchBM emptyOkPages := by
  have h0 : fetchBM pages = [] := by
    refine fetchBMAux_fail pages i 10 0 [] 0 hi ?_ ?_
    · intro m hm; simpa using hbefore m hm
    · simpa using hfail
  exact ⟨h0, by rw [h0]; rfl⟩

/-- Witness for `fetch_failure_empty_list`: a first-page network failure
yields the same value as a successful empty fetch. -/
theorem fetch_failure_empty_list_witness :
    fetchBM failingPages = [] ∧ fetchBM failingPages = fetchBM emptyOkPages :=
  fetch_failure_empty_list failingPages 0 (by omega)
    (fun m hm => absurd hm (by omega)) rfl

/-- C6 counterexample: a fetch whose first page times out returns exactly
the same value — the bare empty list — as a successful fetch that found
no servers, so no explicit error value reaches the caller and the two
cases cannot be distinguished from the function's result. -/
theorem fetch_failure_no_error_value_cex :
    fetchBM failingPages = fetchBM emptyOkPages ∧ fetchBM failingPages = [] :=
  ⟨rfl, rfl⟩

/-! ## Snapshot replacement (`main_window.py`, `ServerFetchWorker.run` and
`MainWindow._update_servers`) -/

/-- `ServerManager.MANUAL_SERVERS` is empty in the source, so
`_get_manual_servers` returns no servers. -/
def manualServers : List GameServer := []

/-- `ServerManager.fetch_servers`: BattleMetrics servers plus the manual
ones. -/
def fetch_servers (pages : Nat → PageResult) : List GameServer :=
  fetchBM pages ++ manualServers

/-- `ServerFetchWorker.run` followed by `MainWindow._update_servers`: fetch
a fresh snapshot, set each entry's favorite flag from the persistent
favorites store (`self.db.get_favorites()`), and replace `self.servers`
with the result wholesale. -/
def replaceAll (dbFavorites : List String) (pages : Nat → PageResult) : List GameServer :=
  (fetch_servers pages).map (fun s => { s with is_favorite := dbFavorites.contains s.id })

/-- Every server the fetch loop returns is either carried in from the
accumulator or built by `mkBMServer`. -/
lemma fetchBMAux_mem (pages : Nat → PageResult) (budget : Nat) :
    ∀ pageIdx acc reqs s, s ∈ (fetchBMAux pages pageIdx budget acc reqs).1 →
      s ∈ acc ∨ ∃ row, s = mkBMServer row := by
  induction budget with
  | zero => intro pageIdx acc reqs s hs; left; simpa [fetchBMAux] using hs
  | succ b ih =>
      intro pageIdx acc reqs s hs
      unfold fetchBMAux at hs
      cases hp : pages pageIdx with
      | netFail => rw [hp] at hs; simp at hs
      | ok rows hasNext =>
          rw [hp] at hs
          cases hasNext with
          | false =>
              simp only [Bool.false_eq_true, if_false] at hs
              rcases List.mem_append.mp hs with h | h
              · exact Or.inl h
              · right
                obtain ⟨row, _, rfl⟩ := List.mem_map.mp h
                exact ⟨row, rfl⟩
          | true =>
              simp only [if_true] at hs
              rcases ih (pageIdx + 1) _ (reqs + 1) s hs with h | h
              · rcases List.mem_append.mp h with h | h
                · exact Or.inl h
                · right
                  obtain ⟨row, _, rfl⟩ := List.mem_map.mp h
                  exact ⟨row, rfl⟩
              · exact Or.inr h

/-- C5 (amended): after `replaceAll` swaps in a new snapshot, every entity
is freshly built: its favorite flag equals membership of its id in the
persistent favorites store (so favoriting survives refreshes, including
an id favorited before a second `replaceAll` whose snapshot still
contains it), while its latency and last-probed data are reset to `none`
— previous per-entity latency is not carried over (servers are re-pinged
after each refresh). -/
theorem replace_all_fresh (dbFavorites : List String) (pages : Nat → PageResult)
    (s : GameServer) (hs : s ∈ replaceAll dbFavorites pages) :
    s.latency = none ∧ s.last_ping_time = none ∧
    (s.is_favorite = true ↔ s.id ∈ dbFavorites) := by
  obtain ⟨t, ht, rfl⟩ := List.mem_map.mp hs
  have ht2 : t ∈ fetchBM pages := by
    simpa [fetch_servers, manualServers] using ht
  rcases fetchBMAux_mem pages 10 0 [] 0 t ht2 with h | ⟨row, rfl⟩
  · simp at h
  · refine ⟨rfl, rfl, ?_⟩
    simp

/-- The BattleMetrics record with id "42" used by the C5 scenario. -/
def row42 : BMRow :=
  { id := some "42", name := some "Skull Island", ip := some "1.2.3.4",
    port := some 7777, players := some 5, maxPlayers := some 64,
    map := some "M1", country := some "US", version := some "0.256.1304" }

/-- A fetch whose snapshot contains exactly the id-"42" record. -/
def pages42 : Nat → PageResult := fun _ => .ok [row42] false

/-- The id-"42" entity as it stood in the previous snapshot: favorited,
with measured latency 50 ms and a last-probe timestamp. -/
def prev42 : GameServer :=
  { id := "42", name := "Skull Island", ip := "1.2.3.4", port := 7777,
    players := 5, max_players := 64, map := "M1", region := "US",
    version := "0.256.1304", latency := some 50, is_favorite := true,
    last_ping_time := some 1000 }

/-- Witness for `replace_all_fresh`: the concrete scenario — with "42" in
the favorites store, the entity id "42" still reports favorited after the
snapshot swap, with probe data reset. -/
theorem replace_all_fresh_witness :
    ({ mkBMServer row42 with is_favorite := true } : GameServer).latency = none ∧
    ({ mkBMServer row42 with is_favorite := true } : GameServer).last_ping_time = none ∧
    (({ mkBMServer row42 with is_favorite := true } : GameServer).is_favorite = true
      ↔ ({ mkBMServer row42 with is_favorite := true } : GameServer).id ∈ ["42"]) :=
  replace_all_fresh ["42"] pages42 _ (by decide)

/-- C5 counterexample: entity id "42" was present before the second
`replaceAll` with latency 50 and last-probe data, is present in the new
snapshot, yet after the swap its latency is `none` — the previous latency
and last-probed data are not kept.  (The favorite flag does survive.) -/
theorem replace_all_drops_latency_cex :
    prev42.id = "42" ∧ prev42.latency = some 50 ∧
    (replaceAll ["42"] pages42).map GameServer.id = ["42"] ∧
    (replaceAll ["42"] pages42).map GameServer.latency = [none] ∧
    (replaceAll ["42"] pages42).map GameServer.is_favorite = [true] := by
  refine ⟨rfl, rfl, by decide, by decide, by decide⟩


/-! ## Latency probe (`ping_service.py`, `PingService.ping_server`) -/

/-- Outcome of the TCP connect attempt inside `ping_server` — the one
effectful step the function performs.  `connected elapsedMs`: the
connection established within the timeout, with the measured wall-clock
elapsed milliseconds; `timedOut`: `socket.timeout`; `refused`: a refused
connection to a closed/non-listening port (`ConnectionRefusedError`, a
`socket.error` subclass, carrying Python's standard message); `sockErr e`:
any other `socket.error`; `otherExc e`: any other exception reaching the
outer handler. -/
inductive ConnectOutcome where
  | connected (elapsedMs : Int)
  | timedOut
  | refused
  | sockErr (msg : String)
  | otherExc (msg : String)
  deriving DecidableEq, Repr

/-- `str(ConnectionRefusedError)` as raised for a closed port. -/
def refusedMsg : String := "[Errno 111] Connection refused"

/-- `PingService.ping_server`: maps every connect outcome to a
`PingRecord`.  The function is total over the outcome type — each
`except` arm returns a record, so no exception passes the function's
boundary.  On success the measured latency is returned; every failure
stores the `-1` latency sentinel, `success=False` and a classifying
message (`"Connection timeout"` for a timeout; `"Connection failed: ..."`
for socket errors, including refused connections). -/
def ping_server : ConnectOutcome → PingRecord
  | .connected t => { server_id := "", latency := t, success := true }
  | .timedOut =>
      { server_id := "", latency := -1, success := false,
        error_message := some "Connection timeout" }
  | .refused =>
      { server_id := "", latency := -1, success := false,
        error_message := some ("Connection failed: " ++ refusedMsg) }
  | .sockErr e =>
      { server_id := "", latency := -1, success := false,
        error_message := some ("Connection failed: " ++ e) }
  | .otherExc e =>
      { server_id := "", latency := -1, success := false,
        error_message := some e }

/-- C8: `ping_server` never lets an exception past its boundary (it is
total over every connect outcome, each mapped to a `PingRecord`): a
connection established within the timeout yields `success=true` with the
measured latency; a timed-out attempt yields `success=false` classified
`"Connection timeout"`; a refused connection yields `success=false`
classified `"Connection failed: [Errno 111] Connection refused"` — not
the timeout classification; and every other socket error maps to a
failure record. -/
theorem ping_server_total_classified :
    ∀ (t : Int) (e : String),
      (ping_server (.connected t)).success = true ∧
      (ping_server (.connected t)).latency = t ∧
      (ping_server .timedOut).success = false ∧
      (ping_server .timedOut).error_message = some "Connection timeout" ∧
      (ping_server .refused).success = false ∧
      (ping_server .refused).error_message
        = some ("Connection failed: " ++ refusedMsg) ∧
      (ping_server .refused).error_message ≠ some "Connection timeout" ∧
      (ping_server (.sockErr e)).success = false ∧
      (ping_server (.sockErr e)).latency = -1 ∧
      (ping_server (.otherExc e)).success = false := by
  intro t e
  refine ⟨rfl, rfl, rfl, rfl, rfl, rfl, by decide, rfl, rfl, rfl⟩

/-! ## Probe application (`main_window.py`, `PingWorker.run` and
`MainWindow._on_ping_completed`) -/

/-- `PingWorker.run` emits `result.latency if result.latency > 0 else 0`
as the latency payload of the `ping_completed` signal. -/
def emittedLatency (r : PingRecord) : Int :=
  if r.latency > 0 then r.latency else 0

/-- `MainWindow._on_ping_completed`: store the emitted latency and the
current time on the first server whose id matches, then `break` — later
entries are untouched. -/
def applyPingResult (sid : String) (latency : Int) (now : Nat) :
    List GameServer → List GameServer
  | [] => []
  | s :: rest =>
      if s.id = sid then
        { s with latency := some latency, last_ping_time := some now } :: rest
      else s :: applyPingResult sid latency now rest

/-- C9 (amended): when a probe completes unsuccessfully, the latency
stored on the matched entity is `some 0`, not the `-1` sentinel —
`PingWorker.run` maps every non-positive latency (the failure sentinel
`-1` included) to `0` before emitting — and `some 0` is still distinct
from `none` (never probed). -/
theorem failed_probe_stores_zero (o : ConnectOutcome) (s : GameServer)
    (rest : List GameServer) (now : Nat)
    (hfail : (ping_server o).success = false) :
    applyPingResult s.id (emittedLatency (ping_server o)) now (s :: rest)
      = { s with latency := some 0, last_ping_time := some now } :: rest
    ∧ (some (0 : Int) ≠ (none : Option Int)) := by
  have hlat : (ping_server o).latency = -1 := by
    cases o with
    | connected t => simp [ping_server] at hfail
    | timedOut => rfl
    | refused => rfl
    | sockErr e => rfl
    | otherExc e => rfl
  have hemit : emittedLatency (ping_server o) = 0 := by
    rw [emittedLatency, hlat]
    decide
  rw [hemit]
  exact ⟨by simp [applyPingResult], by simp⟩

/-- Witness for `failed_probe_stores_zero`: a timed-out probe of the
id-"42" entity stores latency `some 0`. -/
theorem failed_probe_stores_zero_witness :
    applyPingResult prev42.id (emittedLatency (ping_server .timedOut)) 5 [prev42]
      = { prev42 with latency := some 0, last_ping_time := some 5 } :: []
    ∧ (some (0 : Int) ≠ (none : Option Int)) :=
  failed_probe_stores_zero .timedOut prev42 [] 5 rfl

/-- C9 counterexample: after applying a failed (timed-out) probe result to
the id-"42" entity, the stored latency is `some 0`, not the claimed `-1`
sentinel. -/
theorem failed_probe_not_minus_one_cex :
    (applyPingResult "42" (emittedLatency (ping_server .timedOut)) 5 [prev42]).map
        GameServer.latency = [some 0]
    ∧ (some (0 : Int)) ≠ some (-1) := by
  refine ⟨by decide, by decide⟩


/-! ## Filter/sort view (`main_window.py`, `DisplayWorker.run`) -/

/-- Python `sorted`'s insertion of one element into an already-sorted
list, stable: on ties (`le` both ways) the inserted element, which came
earlier in the input, stays first. -/
def pyOrderedInsert {α : Type} (le : α → α → Bool) (a : α) : List α → List α
  | [] => [a]
  | b :: l => if le a b then a :: b :: l else b :: pyOrderedInsert le a l

/-- A stable sort.  Python's `sorted` is stable, and the output of a
stable sort with respect to a total preorder is unique, so this insertion
sort computes exactly what `sorted` returns. -/
def pyStableSort {α : Type} (le : α → α → Bool) : List α → List α
  | [] => []
  | b :: l => pyOrderedInsert le b (pyStableSort le l)

lemma mem_pyOrderedInsert {α : Type} (le : α → α → Bool) (a x : α) (l : List α) :
    x ∈ pyOrderedInsert le a l ↔ x = a ∨ x ∈ l := by
  induction l with
  | nil => simp [pyOrderedInsert]
  | cons b l ih =>
      cases hc : le a b
      · simp only [pyOrderedInsert, hc, Bool.false_eq_true, if_false, List.mem_cons, ih]
        tauto
      · simp only [pyOrderedInsert, hc, if_true, List.mem_cons]

/-- Inserting into a sorted list keeps it sorted (for a total, transitive
comparator). -/
lemma pairwise_pyOrderedInsert {α : Type} (le : α → α → Bool)
    (htot : ∀ a b, le a b = true ∨ le b a = true)
    (htrans : ∀ a b c, le a b = true → le b c = true → le a c = true)
    (a : α) (l : List α) (hl : List.Pairwise (fun x y => le x y = true) l) :
    List.Pairwise (fun x y => le x y = true) (pyOrderedInsert le a l) := by
  induction l with
  | nil => simp [pyOrderedInsert]
  | cons b l ih =>
      rw [List.pairwise_cons] at hl
      obtain ⟨hb, hl2⟩ := hl
      by_cases h : le a b
      · rw [pyOrderedInsert, if_pos h]
        refine List.Pairwise.cons ?_ (List.Pairwise.cons hb hl2)
        intro x hx
        rcases List.mem_cons.mp hx with rfl | hx
        · exact h
        · exact htrans a b x h (hb x hx)
      · rw [pyOrderedInsert, if_neg h]
        have hba : le b a = true := (htot a b).resolve_left (by simpa using h)
        refine List.Pairwise.cons ?_ (ih hl2)
        intro x hx
        rcases (mem_pyOrderedInsert le a x l).mp hx with rfl | hx
        · exact hba
        · exact hb x hx

/-- The stable sort's output is sorted under a total, transitive
comparator. -/
lemma pairwise_pyStableSort {α : Type} (le : α → α → Bool)
    (htot : ∀ a b, le a b = true ∨ le b a = true)
    (htrans : ∀ a b c, le a b = true → le b c = true → le a c = true)
    (l : List α) :
    List.Pairwise (fun x y => le x y = true) (pyStableSort le l) := by
  induction l with
  | nil => simp [pyStableSort]
  | cons b l ih => exact pairwise_pyOrderedInsert le htot htrans b _ ih

/-- The `COUNTRY_TO_CONTINENT` table of `main_window.py`, in its
insertion order. -/
def countryToContinent : List (String × String) :=
  [("US", "North America"), ("CA", "North America"), ("MX", "North America"),
   ("BR", "South America"), ("CO", "South America"), ("CL", "South America"),
   ("AR", "South America"), ("PE", "South America"),
   ("GB", "Europe"), ("DE", "Europe"), ("FR", "Europe"), ("NL", "Europe"),
   ("PL", "Europe"), ("RU", "Europe"), ("IT", "Europe"), ("ES", "Europe"),
   ("PT", "Europe"), ("BE", "Europe"), ("CH", "Europe"), ("AT", "Europe"),
   ("SE", "Europe"), ("NO", "Europe"), ("DK", "Europe"), ("FI", "Europe"),
   ("CZ", "Europe"), ("HU", "Europe"), ("RO", "Europe"), ("GR", "Europe"),
   ("UA", "Europe"),
   ("AE", "Middle East"), ("SA", "Middle East"), ("IL", "Middle East"),
   ("TR", "Middle East"), ("IQ", "Middle East"), ("IR", "Middle East"),
   ("CN", "Asia"), ("JP", "Asia"), ("SG", "Asia"), ("IN", "Asia"),
   ("KR", "Asia"), ("TH", "Asia"), ("MY", "Asia"), ("PH", "Asia"),
   ("VN", "Asia"), ("ID", "Asia"), ("PK", "Asia"), ("BD", "Asia"),
   ("AU", "Oceania"), ("NZ", "Oceania"),
   ("ZA", "Africa"), ("EG", "Africa"), ("NG", "Africa")]

/-- The `selected_countries` list `DisplayWorker.run` builds from the
selected region name: empty for "All Regions", otherwise the countries
the table maps to that region. -/
def selectedCountries (regionName : String) : List String :=
  if regionName = "All Regions" then []
  else (countryToContinent.filter (fun p => p.2 == regionName)).map (fun p => p.1)

/-- Python `str.lower()` (per-character lowering). -/
def pyLower (s : String) : String := s.map Char.toLower

/-- Python's substring test `needle in hay`. -/
def pyInStr (needle hay : String) : Bool :=
  (List.range (hay.data.length + 1)).any
    (fun i => (hay.data.drop i).take needle.data.length == needle.data)

/-- The ping filter of `DisplayWorker.run`: skip the server when
`server.latency is not None and server.latency > 0` and
`server.latency > self.max_ping`. -/
def pingFilterSkip (maxPing : Int) : Option Int → Bool
  | none => false
  | some v => decide (0 < v) && decide (maxPing < v)

/-- The filter block of `DisplayWorker.run`: each `continue` branch in
order (favorites-only, search text, region, max ping, hide-empty,
hide-full); a server passing them all is kept. -/
def passesFilters (searchText : String) (favoritesOnly : Bool)
    (selCountries : List String) (maxPing : Int) (hideEmpty hideFull : Bool)
    (s : GameServer) : Bool :=
  if favoritesOnly ∧ ¬ s.is_favorite = true then false
  else if searchText ≠ "" ∧ ¬ pyInStr searchText (pyLower s.name) = true then false
  else if selCountries ≠ [] ∧ s.region ∉ selCountries then false
  else if pingFilterSkip maxPing s.latency = true then false
  else if hideEmpty ∧ s.players = 0 then false
  else if hideFull ∧ s.players ≥ s.max_players then false
  else true

/-- The ping sort key `s.latency if s.latency else 999999`: Python
truthiness sends both `None` and `0` to the `999999` sentinel. -/
def pingSortKey (s : GameServer) : Int :=
  match s.latency with
  | none => 999999
  | some v => if v = 0 then 999999 else v

/-- Python string comparison: lexicographic by code point. -/
def charListLe : List Char → List Char → Bool
  | [], _ => true
  | _ :: _, [] => false
  | a :: as, b :: bs =>
      if a.toNat < b.toNat then true
      else if b.toNat < a.toNat then false
      else charListLe as bs

/-- The name sort key `s.name.lower()`. -/
def nameKey (s : GameServer) : List Char := (pyLower s.name).data

/-- Python `sorted(filtered, key=key, reverse=reverse)`: a stable sort by
key; `reverse=True` compares keys swapped while still preserving input
order on ties. -/
def pySortedByKey {κ : Type} (key : GameServer → κ) (keyLe : κ → κ → Bool)
    (reverse : Bool) (l : List GameServer) : List GameServer :=
  pyStableSort
    (fun a b => if reverse then keyLe (key b) (key a) else keyLe (key a) (key b)) l

/-- `DisplayWorker.run`: filter by the six settings; sort by the
requested column (0/4/5/6 pass through unsorted; 1 = name, 2 = players,
3 = ping); then partition favorites first.  `sortReverse` is
`sort_order == Qt.SortOrder.DescendingOrder`. -/
def displayWorkerRun (servers : List GameServer) (searchText : String)
    (favoritesOnly : Bool) (regionName : String) (maxPing : Int)
    (hideEmpty hideFull : Bool) (sortColumn : Nat) (sortReverse : Bool) :
    List GameServer :=
  let selCountries := selectedCountries regionName
  let filtered := servers.filter
    (passesFilters searchText favoritesOnly selCountries maxPing hideEmpty hideFull)
  let sorted :=
    if sortColumn = 1 then pySortedByKey nameKey charListLe sortReverse filtered
    else if sortColumn = 2 then
      pySortedByKey (fun s => s.players) (fun a b => decide (a ≤ b)) sortReverse filtered
    else if sortColumn = 3 then
      pySortedByKey pingSortKey (fun a b => decide (a ≤ b)) sortReverse filtered
    else filtered
  (sorted.filter (fun s => s.is_favorite)) ++ (sorted.filter (fun s => ! s.is_favorite))

/-- The `favorites + non_favorites` recombination puts every favorited
entry before every non-favorited one, for any input list. -/
lemma favorites_first_partition (l : List GameServer) :
    List.Pairwise (fun a b : GameServer => b.is_favorite = true → a.is_favorite = true)
      ((l.filter (fun s => s.is_favorite)) ++ (l.filter (fun s => ! s.is_favorite))) := by
  rw [List.pairwise_append]
  refine ⟨?_, ?_, ?_⟩
  · apply List.pairwise_of_forall_mem_list
    intro a ha b hb _
    exact (List.mem_filter.mp ha).2
  · apply List.pairwise_of_forall_mem_list
    intro a ha b hb hbfav
    have hb2 := (List.mem_filter.mp hb).2
    rw [hbfav] at hb2
    simp at hb2
  · intro a ha b hb _
    exact (List.mem_filter.mp ha).2

/-- The ascending ping sort is sorted by `pingSortKey`. -/
lemma pairwise_pySortedByKey_ping_asc (l : List GameServer) :
    List.Pairwise (fun a b : GameServer => pingSortKey a ≤ pingSortKey b)
      (pySortedByKey pingSortKey (fun a b => decide (a ≤ b)) false l) := by
  have h := pairwise_pyStableSort
      (fun a b : GameServer =>
        if (false : Bool) then decide (pingSortKey b ≤ pingSortKey a)
        else decide (pingSortKey a ≤ pingSortKey b))
      (fun a b => by simp; omega)
      (fun a b c hab hbc => by simp at hab hbc ⊢; omega)
      l
  refine h.imp ?_
  intro a b hab
  simpa using hab

/-- Within one favorite group of the ascending-ping view, a null-latency
entry (key 999999) never precedes an entry with measured positive
latency below the sentinel. -/
lemma display_ping_asc_grouped (servers : List GameServer) (searchText : String)
    (favoritesOnly : Bool) (regionName : String) (maxPing : Int)
    (hideEmpty hideFull : Bool) :
    List.Pairwise (fun a b : GameServer =>
        a.is_favorite = b.is_favorite → a.latency = none →
        ∀ v : Int, b.latency = some v → 0 < v → v < 999999 → False)
      (displayWorkerRun servers searchText favoritesOnly regionName maxPing
        hideEmpty hideFull 3 false) := by
  have himp : ∀ a b : GameServer, pingSortKey a ≤ pingSortKey b →
      (a.is_favorite = b.is_favorite → a.latency = none →
        ∀ v : Int, b.latency = some v → 0 < v → v < 999999 → False) := by
    intro a b hle hflag hanone v hbv hv0 hvlt
    simp only [pingSortKey, hanone, hbv] at hle
    rw [if_neg (by omega : ¬ v = 0)] at hle
    omega
  have hgoal : displayWorkerRun servers searchText favoritesOnly regionName maxPing
        hideEmpty hideFull 3 false
      = (pySortedByKey pingSortKey (fun a b => decide (a ≤ b)) false
          (servers.filter (passesFilters searchText favoritesOnly
            (selectedCountries regionName) maxPing hideEmpty hideFull))).filter
          (fun s => s.is_favorite)
        ++ (pySortedByKey pingSortKey (fun a b => decide (a ≤ b)) false
          (servers.filter (passesFilters searchText favoritesOnly
            (selectedCountries regionName) maxPing hideEmpty hideFull))).filter
          (fun s => ! s.is_favorite) := rfl
  rw [hgoal, List.pairwise_append]
  have hsorted := pairwise_pySortedByKey_ping_asc
    (servers.filter (passesFilters searchText favoritesOnly
      (selectedCountries regionName) maxPing hideEmpty hideFull))
  refine ⟨?_, ?_, ?_⟩
  · exact (List.Pairwise.sublist (List.filter_sublist _) hsorted).imp
      (fun hle => himp _ _ hle)
  · exact (List.Pairwise.sublist (List.filter_sublist _) hsorted).imp
      (fun hle => himp _ _ hle)
  · intro a ha b hb hflag hanone v hbv hv0 hvlt
    have ha2 := (List.mem_filter.mp ha).2
    have hb2 := (List.mem_filter.mp hb).2
    simp only [Bool.not_eq_true'] at hb2
    rw [hflag, hb2] at ha2
    exact Bool.noConfusion ha2

/-- C4 (amended): for every server list, filter combination and requested
sort, every favorited server precedes every non-favorited server in the
view; and when sorting by latency ascending, within each favorite group
every server with null latency appears after every server whose measured
latency is positive and below the 999999 missing-value sentinel.  (Across
groups the favorites-first rule wins, and a latency of 0 — a failed probe
— shares the null sentinel key.) -/
theorem display_view_order (servers : List GameServer) (searchText : String)
    (favoritesOnly : Bool) (regionName : String) (maxPing : Int)
    (hideEmpty hideFull : Bool) (sortColumn : Nat) (sortReverse : Bool) :
    List.Pairwise (fun a b : GameServer => b.is_favorite = true → a.is_favorite = true)
      (displayWorkerRun servers searchText favoritesOnly regionName maxPing
        hideEmpty hideFull sortColumn sortReverse) ∧
    (sortColumn = 3 → sortReverse = false →
      List.Pairwise (fun a b : GameServer =>
          a.is_favorite = b.is_favorite → a.latency = none →
          ∀ v : Int, b.latency = some v → 0 < v → v < 999999 → False)
        (displayWorkerRun servers searchText favoritesOnly regionName maxPing
          hideEmpty hideFull sortColumn sortReverse)) := by
  constructor
  · exact favorites_first_partition _
  · intro h3 hrev
    subst h3 hrev
    exact display_ping_asc_grouped servers searchText favoritesOnly regionName
      maxPing hideEmpty hideFull

/-- A favorited server that was never probed (null latency). -/
def cexFavNull : GameServer :=
  { id := "A", name := "Alpha", ip := "1.1.1.1", port := 1, players := 1,
    max_players := 10, map := "M", region := "US", latency := none,
    is_favorite := true }

/-- A non-favorited server with measured latency 50 ms. -/
def cexMeasured : GameServer :=
  { id := "B", name := "Beta", ip := "2.2.2.2", port := 2, players := 1,
    max_players := 10, map := "M", region := "US", latency := some 50 }

/-- C4 counterexample: sorting by latency ascending with no filters, the
favorited null-latency server is moved in front of the non-favorited
measured one by the favorites-first recombination, so a server with no
measured latency appears before a server with measured latency. -/
theorem display_null_before_measured_cex :
    displayWorkerRun [cexFavNull, cexMeasured] "" false "All Regions" 500
        false false 3 false = [cexFavNull, cexMeasured]
    ∧ cexFavNull.latency = none ∧ cexMeasured.latency = some 50
    ∧ cexFavNull.is_favorite = true ∧ cexMeasured.is_favorite = false := by
  refine ⟨by decide, rfl, rfl, rfl, rfl⟩


end ScumTracker
